import Mathlib

/-!
Verification of the telemetry-ingestion core of the `ecoflow-prometheus-exporter`
repository, as a shallow embedding in Lean 4.

Each definition below is translated from the Python source:

* `src/ecoflow/worker.py`               (`Worker`)
* `src/ecoflow/metrics/prometheus.py`   (`EcoflowMetric`)
* `src/ecoflow/proto/decoder.py`        (`ProtobufDecoder`, `_flatten_dict`)
* `src/ecoflow/api/mqtt.py`             (`MqttApiClient`)
* `src/ecoflow/api/device.py`           (`DeviceApiClient`)

Python dictionaries are modelled as insertion-ordered association lists,
machine floats carrying telemetry values as rationals (no rounding behaviour is
relied upon by the proved statements), byte strings as `List Nat` with bytes
below 256, and clock readings (`time.time()`) as rationals.  Configuration
constants are taken at the defaults the modules read from the environment.
-/

namespace EcoflowSpec

/-! A Python/JSON value as it appears in quota maps and decoded frames:
booleans, numbers (`int`/`float`, modelled as one numeric type), strings,
`None`, lists and string-keyed dictionaries.  `pyBool` is kept separate from
`pyNum` because Python distinguishes the types even though `bool` is an `int`
subclass (so `isinstance(value, (int, float))` is true for booleans).
Nested lists and dicts are the mutually defined `PList` / `PDict` (so that
functions recursing into the nesting are structurally recursive); top-level
maps are ordinary `List (String × PValue)` association lists. -/

mutual

/-- A Python/JSON scalar, list or dict value. -/
inductive PValue : Type where
  | pyBool : Bool → PValue
  | pyNum : ℚ → PValue
  | pyStr : String → PValue
  | pyNone : PValue
  | pyList : PList → PValue
  | pyDict : PDict → PValue

/-- A nested Python list. -/
inductive PList : Type where
  | nil : PList
  | cons : PValue → PList → PList

/-- A nested Python dict (insertion-ordered). -/
inductive PDict : Type where
  | nil : PDict
  | cons : String → PValue → PDict → PDict

end

section AssocList

variable {κ ν : Type} [DecidableEq κ]

/-- Lookup in an insertion-ordered association list modelling a Python dict;
when a key occurs several times the LAST occurrence wins, matching the value a
dict built/updated from those pairs in order would hold. -/
def dlookup : List (κ × ν) → κ → Option ν
  | [], _ => none
  | p :: rest, k =>
    (dlookup rest k).orElse (fun _ => if p.1 = k then some p.2 else none)

/-- `d[k] = v` on a Python dict: overwrite the existing entry in place, or
append a new entry at the end (dicts preserve insertion order). -/
def dictSet (c : List (κ × ν)) (k : κ) (v : ν) : List (κ × ν) :=
  if c.any (fun p => decide (p.1 = k)) then
    c.map (fun p => if p.1 = k then (k, v) else p)
  else
    c ++ [(k, v)]

/-- `c.update(d)` on Python dicts: set every entry of `d`, in order, into `c`.
Keys missing from `d` are left untouched (no key is ever deleted). -/
def dictUpdate (c d : List (κ × ν)) : List (κ × ν) :=
  d.foldl (fun acc p => dictSet acc p.1 p.2) c

theorem dlookup_cons (p : κ × ν) (rest : List (κ × ν)) (k : κ) :
    dlookup (p :: rest) k =
      (dlookup rest k).orElse (fun _ => if p.1 = k then some p.2 else none) := rfl

theorem dlookup_append (c₁ c₂ : List (κ × ν)) (k : κ) :
    dlookup (c₁ ++ c₂) k = (dlookup c₂ k).orElse (fun _ => dlookup c₁ k) := by
  induction c₁ with
  | nil => cases h : dlookup c₂ k <;> simp [dlookup, h]
  | cons p rest ih =>
    rw [List.cons_append, dlookup_cons, dlookup_cons, ih]
    cases h2 : dlookup c₂ k <;> simp

theorem dlookup_overwrite (c : List (κ × ν)) (k : κ) (v : ν) (k' : κ) :
    dlookup (c.map (fun p => if p.1 = k then (k, v) else p)) k' =
      if k' = k then (if c.any (fun p => decide (p.1 = k)) then some v else none)
      else dlookup c k' := by
  induction c with
  | nil => by_cases h : k' = k <;> simp [dlookup, h]
  | cons p rest ih =>
    rw [List.map_cons, dlookup_cons, ih, dlookup_cons]
    by_cases hk : k' = k
    · subst hk
      cases hany : rest.any (fun p => decide (p.1 = k')) <;>
        by_cases hp : p.1 = k' <;> simp [hany, hp]
    · have hk' : ¬k = k' := fun h => hk h.symm
      by_cases hp : p.1 = k
      · cases h3 : dlookup rest k' <;> simp [hk, hk', hp, h3]
      · cases h3 : dlookup rest k' <;> simp [hk, hp, h3]

theorem dlookup_dictSet (c : List (κ × ν)) (k : κ) (v : ν) (k' : κ) :
    dlookup (dictSet c k v) k' = if k' = k then some v else dlookup c k' := by
  unfold dictSet
  by_cases hmem : c.any (fun p => decide (p.1 = k))
  · rw [if_pos hmem, dlookup_overwrite, if_pos hmem]
  · rw [if_neg hmem, dlookup_append]
    by_cases hk : k' = k
    · subst hk; simp [dlookup]
    · have hk' : ¬k = k' := fun h => hk h.symm
      simp [dlookup, hk, hk']

theorem dlookup_dictUpdate (c d : List (κ × ν)) (k : κ) :
    dlookup (dictUpdate c d) k = (dlookup d k).orElse (fun _ => dlookup c k) := by
  induction d generalizing c with
  | nil => simp [dictUpdate, dlookup]
  | cons p rest ih =>
    show dlookup (dictUpdate (dictSet c p.1 p.2) rest) k = _
    rw [ih, dlookup_cons, dlookup_dictSet]
    cases h3 : dlookup rest k with
    | some v => simp
    | none =>
      by_cases h : p.1 = k
      · simp [h]
      · have h' : ¬k = p.1 := fun hh => h hh.symm
        simp [h, h']

end AssocList

/-! ## C2 — the quota cache over a session of ingested messages

Ingestion paths into `_quota_cache` (the same triple exists in
`MqttApiClient` and `DeviceApiClient`):

* `_handle_message` / `_handle_data_message`: JSON push, merge the `params`
  object with `dict.update`;
* `_handle_quota_reply` (`DeviceApiClient` only): when
  `operateType == "latestQuotas"` and `int(data.online) == 1`, merge
  `data.quotaMap`; otherwise leave the cache unchanged;
* `_handle_binary_message`: merge the decoder's output when it is non-empty.

`get_device_quota(sn)` returns a copy of the cache for the configured serial
and `{}` otherwise. -/

/-- One message arriving at a push / request-reply backend, already at the
parsed level: JSON push `params`, a quota reply (with its `operateType`
comparison result and its `online` field), a decoded binary frame, or a
payload that failed to parse (handlers swallow the error). -/
inductive InMsg : Type where
  | pushParams (params : List (String × PValue))
  | quotaReply (isLatestQuotas : Bool) (online : ℤ) (quotaMap : List (String × PValue))
  | binaryFrame (decoded : List (String × PValue))
  | unparsed

/-- The key/value map a message's handler merges into `_quota_cache`, or
`none` when the handler leaves the cache untouched (reply not marked online,
empty decoder output, parse failure). -/
def ingestDelta : InMsg → Option (List (String × PValue))
  | .pushParams params => some params
  | .quotaReply isLatest online quotaMap =>
      if isLatest ∧ online = 1 then some quotaMap else none
  | .binaryFrame decoded => if decoded.isEmpty then none else some decoded
  | .unparsed => none

/-- Effect of one message on the cache (`self._quota_cache.update(...)` under
the cache lock, or no write at all). -/
def applyMsg (cache : List (String × PValue)) (m : InMsg) : List (String × PValue) :=
  match ingestDelta m with
  | some d => dictUpdate cache d
  | none => cache

/-- The cache after a session: every message applied in arrival order to the
initially empty `_quota_cache`. -/
def runSession (msgs : List InMsg) : List (String × PValue) :=
  msgs.foldl applyMsg []

/-- `get_device_quota` of `MqttApiClient` / `DeviceApiClient`: a snapshot of
the cache for the configured serial, `{}` for any other serial. -/
def getDeviceQuota (cfgSn : String) (cache : List (String × PValue)) (sn : String) :
    List (String × PValue) :=
  if sn = cfgSn then cache else []

/-- One message's contribution to "the most recently ingested value for key
`k`": replace the accumulator with the value from this message's applied delta
when that delta contains `k`, keep it otherwise. -/
def lastStep (k : String) (acc : Option PValue) (m : InMsg) : Option PValue :=
  match ingestDelta m with
  | some d => (dlookup d k).orElse (fun _ => acc)
  | none => acc

/-- The most recently ingested value for key `k` over a session: fold over the
messages, remembering the value from the latest applied delta containing `k`. -/
def lastIngested (msgs : List InMsg) (k : String) : Option PValue :=
  msgs.foldl (lastStep k) none

theorem dlookup_applyMsg (cache : List (String × PValue)) (m : InMsg) (k : String) :
    dlookup (applyMsg cache m) k = lastStep k (dlookup cache k) m := by
  unfold applyMsg lastStep
  cases h : ingestDelta m with
  | some d => simp only [dlookup_dictUpdate]
  | none => rfl

theorem dlookup_foldl_session (msgs : List InMsg) (k : String) :
    ∀ cache : List (String × PValue),
      dlookup (msgs.foldl applyMsg cache) k = msgs.foldl (lastStep k) (dlookup cache k) := by
  induction msgs with
  | nil => intro cache; rfl
  | cons m rest ih =>
    intro cache
    simp only [List.foldl_cons]
    rw [ih (applyMsg cache m), dlookup_applyMsg]

/-- C2.  For every key that has appeared in any ingested message (push JSON
`params`, quota-reply `quotaMap` absorbed by `_handle_quota_reply`, or decoded
binary frame) during a session, `get_device_quota` for the configured serial
reports exactly the most recently ingested value for that key, and a message
lacking a previously seen key never removes it: the reported value after the
whole session equals the fold of "latest delta containing the key" over the
session, for every session and every key. -/
theorem quota_cache_reports_last_ingested (msgs : List InMsg) (k cfgSn : String) :
    dlookup (getDeviceQuota cfgSn (runSession msgs) cfgSn) k = lastIngested msgs k := by
  unfold getDeviceQuota runSession lastIngested
  rw [if_pos rfl, dlookup_foldl_session]
  rfl

/-! ## Metric shaping (`src/ecoflow/metrics/prometheus.py`)

`EcoflowMetric._extract_indexes` removes every regex match of `\[(\d+)\]`
from a key and turns the digit groups into labels `index_0`, `index_1`, … in
order of appearance; `EcoflowMetric._to_snake_case` folds `.`/`[`/`]` to `_`,
collapses runs of `_`, strips outer `_` and applies `inflection.underscore`
(the camelCase → snake_case conversion of the `inflection` library).  Keys
are modelled as `List Char`; the regex substitutions are implemented by
left-to-right, non-overlapping scans exactly as `re.sub` performs them. -/

def isAsciiUpper (c : Char) : Bool := 65 ≤ c.toNat && c.toNat ≤ 90

def isAsciiLower (c : Char) : Bool := 97 ≤ c.toNat && c.toNat ≤ 122

def isAsciiDigit (c : Char) : Bool := 48 ≤ c.toNat && c.toNat ≤ 57

/-- `str.lower()` on an ASCII character. -/
def asciiLower (c : Char) : Char :=
  if isAsciiUpper c then Char.ofNat (c.toNat + 32) else c

theorem dropWhile_length_le (p : Char → Bool) (l : List Char) :
    (l.dropWhile p).length ≤ l.length := by
  induction l with
  | nil => simp [List.dropWhile]
  | cons c cs ih =>
    rw [List.dropWhile]
    cases p c
    · simp
    · simp
      omega

/-- `re.sub(r"([A-Z]+)([A-Z][a-z])", r"\1_\2", word)`, the first pass of
`inflection.underscore`: each maximal uppercase run of length ≥ 2 followed by
a lowercase letter gets an underscore before its last letter; scanning
resumes after the matched lowercase letter.  The `fuel` argument (always
instantiated with the list length, which bounds every suffix the scan visits)
makes the recursion structural. -/
def underscorePass1Aux : ℕ → List Char → List Char
  | 0, l => l
  | _ + 1, [] => []
  | fuel + 1, c :: cs =>
    if isAsciiUpper c then
      let run := c :: List.takeWhile isAsciiUpper cs
      match List.dropWhile isAsciiUpper cs with
      | d :: ds =>
        if 2 ≤ run.length ∧ isAsciiLower d then
          run.take (run.length - 1) ++ '_' :: run.drop (run.length - 1) ++
            d :: underscorePass1Aux fuel ds
        else
          run ++ underscorePass1Aux fuel (d :: ds)
      | [] => run
    else
      c :: underscorePass1Aux fuel cs

def underscorePass1 (l : List Char) : List Char :=
  underscorePass1Aux l.length l

/-- `re.sub(r"([a-z\d])([A-Z])", r"\1_\2", word)`, the second pass of
`inflection.underscore`: an underscore between a lowercase letter or digit
and an uppercase letter; both matched characters are consumed. -/
def underscorePass2 : List Char → List Char
  | c1 :: c2 :: rest =>
    if (isAsciiLower c1 || isAsciiDigit c1) && isAsciiUpper c2 then
      c1 :: '_' :: c2 :: underscorePass2 rest
    else
      c1 :: underscorePass2 (c2 :: rest)
  | l => l

/-- `inflection.underscore(word)`: the two regex passes, then `-` → `_`,
then `str.lower()`. -/
def inflectionUnderscore (l : List Char) : List Char :=
  ((underscorePass2 (underscorePass1 l)).map
      (fun c => if c = '-' then '_' else c)).map asciiLower

/-- `re.sub(r"[.\[\]]", "_", string)` in `_to_snake_case`. -/
def foldSeparators (l : List Char) : List Char :=
  l.map (fun c => if c = '.' ∨ c = '[' ∨ c = ']' then '_' else c)

/-- `re.sub(r"_+", "_", result)` in `_to_snake_case`: collapse runs of
underscores to a single underscore. -/
def collapseUnderscores : List Char → List Char
  | c1 :: c2 :: rest =>
    if c1 = '_' ∧ c2 = '_' then collapseUnderscores (c2 :: rest)
    else c1 :: collapseUnderscores (c2 :: rest)
  | l => l

/-- `result.strip("_")` in `_to_snake_case`. -/
def stripUnderscores (l : List Char) : List Char :=
  ((l.dropWhile (fun c => c = '_')).reverse.dropWhile (fun c => c = '_')).reverse

/-- `EcoflowMetric._to_snake_case`. -/
def toSnakeCase (l : List Char) : List Char :=
  inflectionUnderscore (stripUnderscores (collapseUnderscores (foldSeparators l)))

/-- `EcoflowMetric._extract_indexes`: the name with every `\[(\d+)\]` match
removed, paired with the matched digit groups in order of appearance.  As in
`underscorePass1Aux`, `fuel` (instantiated with the list length) makes the
left-to-right regex scan structurally recursive. -/
def extractIndexesAux : ℕ → List Char → List Char × List (List Char)
  | 0, l => (l, [])
  | _ + 1, [] => ([], [])
  | fuel + 1, c :: cs =>
    if c = '[' ∧ List.takeWhile isAsciiDigit cs ≠ [] ∧
        (List.dropWhile isAsciiDigit cs).head? = some ']' then
      ((extractIndexesAux fuel ((List.dropWhile isAsciiDigit cs).tail)).1,
        List.takeWhile isAsciiDigit cs ::
          (extractIndexesAux fuel ((List.dropWhile isAsciiDigit cs).tail)).2)
    else
      (c :: (extractIndexesAux fuel cs).1, (extractIndexesAux fuel cs).2)

def extractIndexes (l : List Char) : List Char × List (List Char) :=
  extractIndexesAux l.length l

/-- `METRICS_PREFIX` (environment default `"ecoflow"`). -/
def metricsPrefixStr : List Char := String.toList "ecoflow"

/-- The Prometheus collector name built in `EcoflowMetric.__init__` for an
index-stripped key: `f"{METRICS_PREFIX}_{self._to_snake_case(name)}"`. -/
def promNameOfStripped (stripped : List Char) : List Char :=
  metricsPrefixStr ++ '_' :: toSnakeCase stripped

/-- The metric shape name derived from a raw key: indices extracted first
(`_extract_indexes`), then prefix and snake-casing. -/
def deriveShapeName (key : List Char) : List Char :=
  promNameOfStripped (extractIndexes key).1

/-- The labels `index_0`, `index_1`, … with the extracted digit groups as
values, in order of appearance (`_extract_indexes`'s labels dict). -/
def indexLabelPairs (idxs : List (List Char)) : List (List Char × List Char) :=
  (List.range idxs.length).zip idxs |>.map
    (fun p => (String.toList "index_" ++ (toString p.1).toList, p.2))

/-! ## `EcoflowMetric.__init__` and the process-wide `METRICS_POOL`

The pool maps the key name AFTER `_extract_indexes` (but BEFORE
`_to_snake_case`) to the collector registered for it.  Construction looks the
stripped name up; on a hit it reuses the pooled collector, ignoring the
requested metric type and any `buckets`; on a miss it registers a collector
named `f"{METRICS_PREFIX}_{to_snake_case(name)}"` with label names
`labelnames + index labels`.  Registration is modelled by the
`registeredNew` flag of the result (in the real process a second registration
under an already-used Prometheus name would make `prometheus_client` raise a
duplicated-timeseries error). -/

/-- The metric types the wrapper accepts (`Info | Gauge | Counter | Histogram`). -/
inductive MType : Type where
  | info | gauge | counter | histogram
deriving DecidableEq

/-- A registered collector: its Prometheus name, the type it was first
registered with, its label names, and the buckets recorded when it was
registered as a histogram with explicit buckets. -/
structure MetricHandle : Type where
  promName : List Char
  mtype : MType
  labelNames : List (List Char)
  buckets : Option (List ℚ)
deriving DecidableEq

/-- Lookup in `METRICS_POOL` (a Python dict with unique keys; first match). -/
def poolGet : List (List Char × MetricHandle) → List Char → Option MetricHandle
  | [], _ => none
  | p :: rest, k => if p.1 = k then some p.2 else poolGet rest k

/-- Result of one `EcoflowMetric.__init__` call: the updated pool, the handle
held by the instance, whether a new collector was registered, and the
instance's label values (`{**labels, **index_labels}`). -/
structure MkResult : Type where
  pool : List (List Char × MetricHandle)
  handle : MetricHandle
  registeredNew : Bool
  labelValues : List (List Char × List Char)

/-- `EcoflowMetric.__init__(metric_type, name, description, labelnames,
buckets=…, **labels)` acting on the pool. -/
def mkMetric (pool : List (List Char × MetricHandle)) (mtype : MType)
    (name : List Char) (labelnames : List (List Char)) (buckets : Option (List ℚ))
    (labels : List (List Char × List Char)) : MkResult :=
  let stripped := (extractIndexes name).1
  let idxLabels := indexLabelPairs (extractIndexes name).2
  let labelValues := labels ++ idxLabels
  match poolGet pool stripped with
  | some h => ⟨pool, h, false, labelValues⟩
  | none =>
    let h : MetricHandle :=
      { promName := promNameOfStripped stripped
        mtype := mtype
        labelNames := labelnames ++ idxLabels.map Prod.fst
        buckets := if mtype = MType.histogram then buckets else none }
    ⟨pool ++ [(stripped, h)], h, true, labelValues⟩

/-- `EcoflowMetric.LABEL_NAMES`. -/
def workerLabelNames : List (List Char) :=
  [String.toList "device", String.toList "device_name",
   String.toList "product_name", String.toList "device_general_key"]

theorem poolGet_append (l₁ l₂ : List (List Char × MetricHandle)) (k : List Char) :
    poolGet (l₁ ++ l₂) k = (poolGet l₁ k).orElse (fun _ => poolGet l₂ k) := by
  induction l₁ with
  | nil => simp [poolGet]
  | cons p rest ih =>
    by_cases h : p.1 = k <;> simp [poolGet, h, ih]

/-- C3 counterexample.  The keys `"a.b"` and `"a_b"` derive the same shape
name `ecoflow_a_b`, yet after constructing an `EcoflowMetric` for `"a.b"` a
construction for `"a_b"` misses `METRICS_POOL` (which is keyed by the
pre-snake-case stripped name) and registers a second collector instead of
reusing the first handle — refuting interning by shape name. -/
theorem metric_interning_counterexample :
    deriveShapeName (String.toList "a.b") = deriveShapeName (String.toList "a_b") ∧
    (mkMetric [] MType.gauge (String.toList "a.b") workerLabelNames none
        []).registeredNew = true ∧
    (mkMetric
        (mkMetric [] MType.gauge (String.toList "a.b") workerLabelNames none []).pool
        MType.gauge (String.toList "a_b") workerLabelNames none
        []).registeredNew = true := by
  refine ⟨by decide, by decide, by decide⟩

/-- C3 amended.  Metric handles are interned by the index-stripped key (the
name after `_extract_indexes`, before snake-casing): whenever two keys strip
to the same name, the second construction — whatever its metric type, buckets
or bracketed index values — reuses the handle registered by the first and
registers nothing new, leaving the pool unchanged. -/
theorem metric_interning_by_stripped_key
    (pool : List (List Char × MetricHandle)) (ty₁ ty₂ : MType) (k₁ k₂ : List Char)
    (ln₁ ln₂ : List (List Char)) (b₁ b₂ : Option (List ℚ))
    (lv₁ lv₂ : List (List Char × List Char))
    (h : (extractIndexes k₁).1 = (extractIndexes k₂).1) :
    (mkMetric (mkMetric pool ty₁ k₁ ln₁ b₁ lv₁).pool ty₂ k₂ ln₂ b₂ lv₂).handle =
        (mkMetric pool ty₁ k₁ ln₁ b₁ lv₁).handle ∧
      (mkMetric (mkMetric pool ty₁ k₁ ln₁ b₁ lv₁).pool ty₂ k₂ ln₂ b₂
          lv₂).registeredNew = false ∧
      (mkMetric (mkMetric pool ty₁ k₁ ln₁ b₁ lv₁).pool ty₂ k₂ ln₂ b₂ lv₂).pool =
        (mkMetric pool ty₁ k₁ ln₁ b₁ lv₁).pool := by
  unfold mkMetric
  rw [← h]
  cases hp : poolGet pool (extractIndexes k₁).1 with
  | some hd => simp [hp]
  | none => simp [hp, poolGet_append, poolGet]

theorem extractIndexesAux_eq_self :
    ∀ (fuel : ℕ) (l : List Char), l.length ≤ fuel →
      (extractIndexesAux fuel l).2 = [] → (extractIndexesAux fuel l).1 = l := by
  intro fuel
  induction fuel with
  | zero => intro l _ _; rfl
  | succ fuel ih =>
    intro l hl h
    match l with
    | [] => rfl
    | c :: cs =>
      have hcs : cs.length ≤ fuel := by simp at hl; omega
      by_cases hcond : c = '[' ∧ List.takeWhile isAsciiDigit cs ≠ [] ∧
          (List.dropWhile isAsciiDigit cs).head? = some ']'
      · simp only [extractIndexesAux, if_pos hcond] at h
        exact absurd h (List.cons_ne_nil _ _)
      · simp only [extractIndexesAux, if_neg hcond] at h ⊢
        rw [ih cs hcs h]

/-- C3 amended witness: constructing `bms.cells[1].vol` as a gauge and then
`bms.cells[2].vol` as a histogram with buckets reuses the first handle. -/
theorem metric_interning_by_stripped_key_witness :
    (extractIndexes (String.toList "bms.cells[1].vol")).1 =
        (extractIndexes (String.toList "bms.cells[2].vol")).1 ∧
      ((mkMetric
          (mkMetric [] MType.gauge (String.toList "bms.cells[1].vol")
            workerLabelNames none []).pool
          MType.histogram (String.toList "bms.cells[2].vol") workerLabelNames
          (some [1, 2]) []).handle =
          (mkMetric [] MType.gauge (String.toList "bms.cells[1].vol")
            workerLabelNames none []).handle ∧
        (mkMetric
            (mkMetric [] MType.gauge (String.toList "bms.cells[1].vol")
              workerLabelNames none []).pool
            MType.histogram (String.toList "bms.cells[2].vol") workerLabelNames
            (some [1, 2]) []).registeredNew = false ∧
        (mkMetric
            (mkMetric [] MType.gauge (String.toList "bms.cells[1].vol")
              workerLabelNames none []).pool
            MType.histogram (String.toList "bms.cells[2].vol") workerLabelNames
            (some [1, 2]) []).pool =
          (mkMetric [] MType.gauge (String.toList "bms.cells[1].vol")
            workerLabelNames none []).pool) :=
  ⟨by decide,
    metric_interning_by_stripped_key [] MType.gauge MType.histogram
      (String.toList "bms.cells[1].vol") (String.toList "bms.cells[2].vol")
      workerLabelNames workerLabelNames none (some [1, 2]) [] [] (by decide)⟩

/-- A key in which no `\[(\d+)\]` match is found is returned unchanged by
`_extract_indexes`. -/
theorem extractIndexes_eq_self (l : List Char)
    (h : (extractIndexes l).2 = []) : (extractIndexes l).1 = l :=
  extractIndexesAux_eq_self l.length l le_rfl h

/-- C5 counterexample.  For the key `a[1[2]3]` the decoder of bracketed
indices matches only `[2]`; deleting it leaves `a[13]`, whose derived shape
name `ecoflow_a` differs from the original key's shape name `ecoflow_a_13` —
so shape-name derivation is NOT invariant under deleting the matched
bracketed indices for every key. -/
theorem shape_name_invariance_counterexample :
    deriveShapeName (String.toList "a[1[2]3]") ≠
      deriveShapeName ((extractIndexes (String.toList "a[1[2]3]")).1) := by
  decide

/-- C5 amended.  Whenever removing the matched bracketed indices creates no
new `[digits]` occurrence (extraction is idempotent on the key — true of
every well-formed device key such as `bms.cells[3].voltage`), the derived
shape name of the key equals the derived shape name of the key with those
indices deleted, and the stripped key contributes no index labels of its own
(the indices appear only as label values `index_0`, `index_1`, … of the
original key, in order of appearance). -/
theorem shape_name_invariant_under_indexes (k : List Char)
    (h : (extractIndexes ((extractIndexes k).1)).2 = []) :
    deriveShapeName ((extractIndexes k).1) = deriveShapeName k ∧
      indexLabelPairs (extractIndexes ((extractIndexes k).1)).2 = [] := by
  constructor
  · unfold deriveShapeName
    rw [extractIndexes_eq_self _ h]
  · rw [h]
    rfl

/-- C5 amended witness: for `bms.cells[3].voltage`, stripping the index
`[3]` leaves the shape name unchanged. -/
theorem shape_name_invariant_under_indexes_witness :
    (extractIndexes ((extractIndexes (String.toList "bms.cells[3].voltage")).1)).2 = [] ∧
      (deriveShapeName ((extractIndexes (String.toList "bms.cells[3].voltage")).1) =
          deriveShapeName (String.toList "bms.cells[3].voltage") ∧
        indexLabelPairs
            (extractIndexes
              ((extractIndexes (String.toList "bms.cells[3].voltage")).1)).2 = []) :=
  ⟨by decide, shape_name_invariant_under_indexes
    (String.toList "bms.cells[3].voltage") (by decide)⟩

/-! ## Frame decoder (`src/ecoflow/proto/decoder.py`)

`ProtobufDecoder.decode` optionally strips a base64 layer (silently keeping
the raw bytes on failure), parses a `Send_Header_Msg` container, XOR-decodes
each header's `pdata` when `enc_type == 1 and src != 32`, and merges the
flattened `DisplayPropertyUpload` payload of every header with
`cmd_func == 254 and cmd_id == 21` into the result, later headers
overwriting earlier ones.  The protobuf wire parsers (`ParseFromString` /
`MessageToDict` of the external `google.protobuf` library) are parameters of
the embedding — `decodeFrame` is the decoder's own control flow over them;
`_flatten_dict` and `_xor_decode` are translated from the source.  All
exceptions of the Python code correspond to `none` results of the parsers,
so the embedded decoder is total (the decoder never raises). -/

/-- One `Header` of the `Send_Header_Msg` container. -/
structure PHeader : Type where
  cmdFunc : ℕ
  cmdId : ℕ
  encType : ℕ
  src : ℕ
  seq : ℕ
  pdata : List ℕ

/-- `ProtobufDecoder._xor_decode`: `bytes((b ^ seq) & 0xFF for b in pdata)`. -/
def xorDecode (pdata : List ℕ) (seq : ℕ) : List ℕ :=
  pdata.map (fun b => (b ^^^ seq) &&& 255)

/-- `_flatten_dict(d, parent_key)`: nested dicts contribute
`parent.child` keys, everything else (lists included) is kept as-is. -/
def flattenDict : PDict → String → List (String × PValue)
  | .nil, _ => []
  | .cons k v rest, parent =>
    let newKey := if parent = "" then k else parent ++ "." ++ k
    (match v with
     | .pyDict d => flattenDict d newKey
     | _ => [(newKey, v)]) ++ flattenDict rest parent

/-- The payload bytes a header is processed with: XOR-deobfuscated when
`enc_type == 1 and src != 32`, as-is otherwise. -/
def headerPdata (h : PHeader) : List ℕ :=
  if h.encType = 1 ∧ h.src ≠ 32 then xorDecode h.pdata h.seq else h.pdata

/-- The loop body of `ProtobufDecoder.decode`: a `DisplayPropertyUpload`
header (`cmd_func == 254 and cmd_id == 21`) whose payload parses merges its
flattened fields into the result (`result.update(...)`); a failing inner
parse or any other command pair leaves the result unchanged. -/
def processHeader (pdisp : List ℕ → Option PDict)
    (result : List (String × PValue)) (h : PHeader) : List (String × PValue) :=
  if h.cmdFunc = 254 ∧ h.cmdId = 21 then
    match pdisp (headerPdata h) with
    | some data => dictUpdate result (flattenDict data "")
    | none => result
  else result

/-- The base64 stage of `decode`: strict base64-decode when possible, keep
the raw bytes otherwise. -/
def b64Stage (pb64 : List ℕ → Option (List ℕ)) (raw : List ℕ) : List ℕ :=
  match pb64 raw with
  | some decoded => decoded
  | none => raw

/-- `ProtobufDecoder.decode`, parameterised by the external protobuf parsers:
`pb64` (strict base64), `pcont` (`Send_Header_Msg.ParseFromString`, `none`
when parsing raises) and `pdisp` (`DisplayPropertyUpload.ParseFromString` +
`MessageToDict`, `none` when parsing raises). -/
def decodeFrame (pb64 : List ℕ → Option (List ℕ))
    (pcont : List ℕ → Option (List PHeader))
    (pdisp : List ℕ → Option PDict)
    (raw : List ℕ) : List (String × PValue) :=
  match pcont (b64Stage pb64 raw) with
  | none => []
  | some headers => headers.foldl (processHeader pdisp) []

/-! ### C4 — the XOR deobfuscation is an involution on bytes -/

set_option maxRecDepth 4000 in
theorem byte_and_255_eq_self : ∀ x < 256, x &&& 255 = x := by decide

theorem byte_xor_lt (x y : ℕ) (hx : x < 256) (hy : y < 256) : x ^^^ y < 256 := by
  have h : x ^^^ y < 2 ^ 8 :=
    Nat.bitwise_lt (by omega : x < 2 ^ 8) (by omega : y < 2 ^ 8)
  simpa using h

/-- C4.  The per-header XOR transform of `ProtobufDecoder._xor_decode` is a
self-inverse: for every byte string and every `seq` in `[0, 256)`, applying
it twice returns the original payload. -/
theorem xorDecode_involutive (payload : List ℕ) (seq : ℕ)
    (hbytes : ∀ b ∈ payload, b < 256) (hseq : seq < 256) :
    xorDecode (xorDecode payload seq) seq = payload := by
  unfold xorDecode
  induction payload with
  | nil => rfl
  | cons b rest ih =>
    have hb : b < 256 := hbytes b (by simp)
    have h1 : b ^^^ seq < 256 := byte_xor_lt b seq hb hseq
    have h2 : (b ^^^ seq) &&& 255 = b ^^^ seq := byte_and_255_eq_self _ h1
    have h3 : (((b ^^^ seq) &&& 255) ^^^ seq) &&& 255 = b := by
      rw [h2, Nat.xor_cancel_right, byte_and_255_eq_self b hb]
    simp only [List.map_cons]
    rw [h3, ih (fun x hx => hbytes x (List.mem_cons_of_mem _ hx))]

/-- C4 witness: the XOR round-trip at a concrete payload and `seq`. -/
theorem xorDecode_involutive_witness :
    (∀ b ∈ [0, 171, 255, 42], b < 256) ∧ (42 : ℕ) < 256 ∧
      xorDecode (xorDecode [0, 171, 255, 42] 42) 42 = [0, 171, 255, 42] :=
  ⟨by decide, by decide, xorDecode_involutive [0, 171, 255, 42] 42 (by decide) (by decide)⟩

/-! ### C7 — decoder failure policy

`decode` returns `{}` when the container parse fails and it never raises;
but a failing INNER payload parse only skips that header, keeping what other
headers already contributed, so a parse error does not always yield an empty
map. -/

/-- A display-payload parser that accepts exactly the byte string `[1]`
(parsing of any other payload raises in the Python code, i.e. `none`). -/
def pdispEx : List ℕ → Option PDict :=
  fun pd => if pd = [1] then some (PDict.cons "soc" (PValue.pyNum 85) PDict.nil) else none

/-- A `DisplayPropertyUpload` header whose payload parses. -/
def goodHeaderEx : PHeader := ⟨254, 21, 0, 0, 0, [1]⟩

/-- A `DisplayPropertyUpload` header whose payload fails to parse. -/
def badHeaderEx : PHeader := ⟨254, 21, 0, 0, 0, [2]⟩

/-- A container parser returning a good header followed by a bad one. -/
def pcontEx : List ℕ → Option (List PHeader) := fun _ => some [goodHeaderEx, badHeaderEx]

/-- A base64 stage that never applies (the bytes are not valid base64). -/
def pb64Ex : List ℕ → Option (List ℕ) := fun _ => none

/-- C7 counterexample.  With a container of one good and one bad
`DisplayPropertyUpload` header, the inner payload parse of the second header
fails and yet `decode` returns the non-empty map contributed by the first
header — refuting "any parse error at any step yields an empty map". -/
theorem decode_empty_on_failure_counterexample :
    pdispEx (headerPdata badHeaderEx) = none ∧
      decodeFrame pb64Ex pcontEx pdispEx [0] = [("soc", PValue.pyNum 85)] ∧
      decodeFrame pb64Ex pcontEx pdispEx [0] ≠ [] := by
  refine ⟨rfl, rfl, ?_⟩
  have heq : decodeFrame pb64Ex pcontEx pdispEx [0] = [("soc", PValue.pyNum 85)] := rfl
  rw [heq]
  simp

/-- C7 amended.  `decode` never raises (the embedded decoder is total by
construction), a container-parse failure yields the empty map, and a failing
inner payload parse skips exactly that header: the result is the fold over
the remaining headers, keeping every other header's contribution. -/
theorem decodeFrame_failure_policy (pb64 : List ℕ → Option (List ℕ))
    (pcont : List ℕ → Option (List PHeader))
    (pdisp : List ℕ → Option PDict) :
    (∀ raw, pcont (b64Stage pb64 raw) = none → decodeFrame pb64 pcont pdisp raw = []) ∧
      (∀ raw (pre : List PHeader) (h : PHeader) (post : List PHeader),
        pcont (b64Stage pb64 raw) = some (pre ++ h :: post) →
        pdisp (headerPdata h) = none →
        decodeFrame pb64 pcont pdisp raw =
          (pre ++ post).foldl (processHeader pdisp) []) := by
  constructor
  · intro raw hnone
    unfold decodeFrame
    rw [hnone]
  · intro raw pre h post hsome hfail
    unfold decodeFrame
    rw [hsome]
    show (pre ++ h :: post).foldl (processHeader pdisp) [] = _
    have hskip : ∀ r, processHeader pdisp r h = r := by
      intro r
      unfold processHeader
      by_cases hcmd : h.cmdFunc = 254 ∧ h.cmdId = 21
      · rw [if_pos hcmd, hfail]
      · rw [if_neg hcmd]
    rw [List.foldl_append, List.foldl_cons, hskip, List.foldl_append]

/-- C7 amended witness: the skip behaviour at the concrete good/bad header
container. -/
theorem decodeFrame_failure_policy_witness :
    pcontEx (b64Stage pb64Ex [0]) = some ([goodHeaderEx] ++ badHeaderEx :: []) ∧
      pdispEx (headerPdata badHeaderEx) = none ∧
      decodeFrame pb64Ex pcontEx pdispEx [0] =
        ([goodHeaderEx] ++ []).foldl (processHeader pdispEx) [] :=
  ⟨rfl, rfl,
    (decodeFrame_failure_policy pb64Ex pcontEx pdispEx).2 [0] [goodHeaderEx]
      badHeaderEx [] rfl rfl⟩

/-! ## Worker (`src/ecoflow/worker.py`)

`Worker._update_metric` projects one quota entry into Prometheus: a number
(`isinstance(value, (int, float))`, which includes booleans) registers an
`EcoflowMetric` gauge for the key on first use, sets it, and counts 1; a
list recurses with `key[i]` appended; a dict recurses with `.subkey`
appended; anything else is skipped with count 0.  `Worker._collect_data`
drives one scrape and `Worker.run` sleeps `COLLECTING_INTERVAL` after a
normal return and `RETRY_TIMEOUT` after an exception. -/

/-- `COLLECTING_INTERVAL` (environment default 10 seconds). -/
def COLLECTING_INTERVAL : ℕ := 10

/-- `RETRY_TIMEOUT` (environment default 30 seconds). -/
def RETRY_TIMEOUT : ℕ := 30

/-- An `EcoflowMetric` instance held by the worker: the pooled collector
handle plus this instance's label values. -/
structure EMetric : Type where
  handle : MetricHandle
  labelValues : List (List Char × List Char)

/-- The worker-visible metric state: the process-wide `METRICS_POOL`, the
worker's `self.metrics` dict (key → `EcoflowMetric`), the values of the
gauge time series (keyed by collector name and label values), and the
worker's fixed device label values. -/
structure WState : Type where
  pool : List (List Char × MetricHandle)
  workerMetrics : List (String × EMetric)
  gaugeValues : List ((List Char × List (List Char × List Char)) × ℚ)
  labels : List (List Char × List Char)

/-- An empty worker metric state. -/
def emptyWState : WState := ⟨[], [], [], []⟩

/-- `if key not in self.metrics: self.metrics[key] = EcoflowMetric(Gauge,
key, …, labelnames=LABEL_NAMES, **self.labels)` followed by reading
`self.metrics[key]`. -/
def getOrRegister (st : WState) (key : String) : WState × EMetric :=
  match dlookup st.workerMetrics key with
  | some em => (st, em)
  | none =>
    let r := mkMetric st.pool MType.gauge key.toList workerLabelNames none st.labels
    let em : EMetric := ⟨r.handle, r.labelValues⟩
    ({ st with pool := r.pool, workerMetrics := dictSet st.workerMetrics key em }, em)

/-- `EcoflowMetric.set`: `self.metric.labels(**self.labels).set(value)`,
writing the time series identified by collector name and label values. -/
def setGauge (st : WState) (em : EMetric) (q : ℚ) : WState :=
  { st with gaugeValues := dictSet st.gaugeValues (em.handle.promName, em.labelValues) q }

/-- `isinstance(value, (int, float))`: true for numbers AND booleans
(Python's `bool` is an `int` subclass). -/
def isNumericScalar : PValue → Bool
  | .pyBool _ => true
  | .pyNum _ => true
  | _ => false

/-- The `float(value)` conversion `prometheus_client`'s `Gauge.set` applies
to the value: `True`/`False` become `1.0`/`0.0`, numbers are themselves
(only these two shapes reach `set` in `_update_metric`). -/
def gaugeFloat : PValue → ℚ
  | .pyBool b => if b then 1 else 0
  | .pyNum q => q
  | _ => 0

mutual

/-- `Worker._update_metric(key, value)`: returns the updated metric state
and the number of metrics updated. -/
def updateMetric (st : WState) (key : String) (v : PValue) : WState × ℕ :=
  if isNumericScalar v then
    let p := getOrRegister st key
    (setGauge p.1 p.2 (gaugeFloat v), 1)
  else
    match v with
    | .pyList l => updateMetricList st key 0 l
    | .pyDict d => updateMetricDict st key d
    | _ => (st, 0)

/-- The list branch of `_update_metric`: recurse per element with
`f"{key}[{i}]"`. -/
def updateMetricList (st : WState) (key : String) (i : ℕ) : PList → WState × ℕ
  | .nil => (st, 0)
  | .cons v rest =>
    let p := updateMetric st (key ++ "[" ++ toString i ++ "]") v
    let q := updateMetricList p.1 key (i + 1) rest
    (q.1, p.2 + q.2)

/-- The dict branch of `_update_metric`: recurse per entry with
`f"{key}.{sub_key}"`. -/
def updateMetricDict (st : WState) (key : String) : PDict → WState × ℕ
  | .nil => (st, 0)
  | .cons k v rest =>
    let p := updateMetric st (key ++ "." ++ k) v
    let q := updateMetricDict p.1 key rest
    (q.1, p.2 + q.2)

end

/-- `Worker._update_metrics(statistics)`: fold `_update_metric` over the
quota map's items, summing the counts. -/
def updateMetricsTop (st : WState) : List (String × PValue) → WState × ℕ
  | [] => (st, 0)
  | (k, v) :: rest =>
    let p := updateMetric st k v
    let q := updateMetricsTop p.1 rest
    (q.1, p.2 + q.2)

/-- The time-series key under which `_update_metric` writes the gauge value
for a worker key (collector name and label values of the worker's
`EcoflowMetric` for that key). -/
def seriesKeyOf (st : WState) (key : String) : List Char × List (List Char × List Char) :=
  ((getOrRegister st key).2.handle.promName, (getOrRegister st key).2.labelValues)

/-- C10.  A boolean value is treated as a numeric scalar by
`_update_metric`: the worker registers (or reuses) a gauge for the key, sets
the series to 1 for `True` and 0 for `False`, and returns 1, so the value
counts toward the reported number of scalar updates. -/
theorem bool_values_counted_as_scalars (st : WState) (key : String) (b : Bool) :
    (updateMetric st key (PValue.pyBool b)).2 = 1 ∧
      (dlookup (updateMetric st key (PValue.pyBool b)).1.workerMetrics key).isSome ∧
      dlookup (updateMetric st key (PValue.pyBool b)).1.gaugeValues
          (seriesKeyOf st key) = some (if b then 1 else 0) := by
  unfold updateMetric seriesKeyOf
  show ((setGauge (getOrRegister st key).1 (getOrRegister st key).2
      (gaugeFloat (PValue.pyBool b)), 1).2 = 1 ∧ _ ∧ _)
  unfold getOrRegister setGauge gaugeFloat
  cases hreg : dlookup st.workerMetrics key with
  | some em => simp [isNumericScalar, hreg, dlookup_dictSet]
  | none => simp [isNumericScalar, hreg, dlookup_dictSet]

/-! ### C1 — the not-found path of the scrape loop -/

/-- `DeviceInfo` of `src/ecoflow/api/models.py`. -/
structure DeviceInfo : Type where
  sn : String
  name : String
  productName : Option String
  online : Bool

/-- What the backend does during one `_collect_data` call: `get_device`
raises, returns `None`, or returns a device — and in the latter case
`get_device_quota` either raises (`none`) or returns a quota map. -/
inductive ClientResp : Type where
  | getDeviceRaises
  | noDevice
  | device (d : DeviceInfo) (quota : Option (List (String × PValue)))

/-- The externally visible effects of one `_collect_data` call: the value
the `online` gauge was last set to, whether `_reset_metrics` ran, the status
label of the accounted scrape, the value set on the `metrics_collected`
gauge, and whether the call re-raised (only re-raised exceptions make
`run()` sleep `RETRY_TIMEOUT`). -/
structure CollectEffects : Type where
  onlineGauge : ℚ
  resetCalled : Bool
  scrapeStatus : String
  metricsCollectedGauge : ℚ
  raised : Bool

/-- `Worker._collect_data`, one call. -/
def collectData (st : WState) (resp : ClientResp) : WState × CollectEffects :=
  match resp with
  | .getDeviceRaises =>
    (st, ⟨0, true, "error", 0, true⟩)
  | .noDevice =>
    (st, ⟨0, false, "not_found", 0, false⟩)
  | .device d quota =>
    if d.online then
      match quota with
      | some stats =>
        let p := updateMetricsTop st stats
        (p.1, ⟨1, false, "success", (p.2 : ℚ), false⟩)
      | none =>
        (st, ⟨0, true, "error", 0, true⟩)
    else
      (st, ⟨0, true, "offline", 0, false⟩)

/-- How long `Worker.run` sleeps after `_collect_data` returns or raises:
`RETRY_TIMEOUT` only when an exception escaped, `COLLECTING_INTERVAL`
otherwise. -/
def iterationSleep (eff : CollectEffects) : ℕ :=
  if eff.raised then RETRY_TIMEOUT else COLLECTING_INTERVAL

/-- C1 counterexample.  In the not-found iteration `_collect_data` returns
normally (it does not raise), so `run()` sleeps `COLLECTING_INTERVAL` (10
seconds at the defaults) — not `RETRY_TIMEOUT` (30 seconds) as claimed. -/
theorem not_found_sleep_counterexample :
    (collectData emptyWState ClientResp.noDevice).2.scrapeStatus = "not_found" ∧
      iterationSleep (collectData emptyWState ClientResp.noDevice).2 =
        COLLECTING_INTERVAL ∧
      iterationSleep (collectData emptyWState ClientResp.noDevice).2 ≠
        RETRY_TIMEOUT := by
  refine ⟨rfl, rfl, by decide⟩

/-- C1 amended.  When `get_device` reports the device as not found, the
iteration sets the `online` gauge to 0, sets the metrics-collected gauge to
0, accounts a scrape with status `not_found`, does not reset metrics, does
not raise — and therefore sleeps the collecting interval
(`COLLECTING_INTERVAL`), not the retry timeout, before the next iteration. -/
theorem not_found_path_effects (st : WState) :
    collectData st ClientResp.noDevice =
        (st, ⟨0, false, "not_found", 0, false⟩) ∧
      iterationSleep (collectData st ClientResp.noDevice).2 = COLLECTING_INTERVAL :=
  ⟨rfl, rfl⟩

/-! ## Push / request-reply backends (`src/ecoflow/api/mqtt.py`, `device.py`)

Clock readings (`time.time()`) are rationals; `_last_update` /
`_last_push_data_time` start as `None`, and Python's `if x:` truthiness on
them is `False` for both `None` and `0.0` (reachable values are positive
epoch seconds).  Configuration constants are at their environment
defaults. -/

/-- `MQTT_TIMEOUT` (environment default 60 seconds). -/
def MQTT_TIMEOUT : ℕ := 60

/-- `QUOTA_REQUEST_INTERVAL` (environment default 30 seconds). -/
def QUOTA_REQUEST_INTERVAL : ℕ := 30

/-- `IDLE_CHECK_INTERVAL` (environment default 30 seconds). -/
def IDLE_CHECK_INTERVAL : ℕ := 30

/-- `MAX_RECONNECT_DELAY` (environment default 300 seconds). -/
def MAX_RECONNECT_DELAY : ℕ := 300

/-! ### C6 — quota-request suppression (`DeviceApiClient._request_quota`) -/

/-- The request envelope published on the get topic (`sender` models the
JSON `from` field). -/
structure QuotaRequest : Type where
  topic : String
  sender : String
  id : ℕ
  version : String
  moduleType : ℕ
  operateType : String

/-- `self._get_topic = f"/app/{user_id}/{self.device_sn}/thing/property/get"`. -/
def getTopicOf (userId sn : String) : String :=
  "/app/" ++ userId ++ "/" ++ sn ++ "/thing/property/get"

/-- `if self._last_push_data_time:` followed by
`if time.time() - self._last_push_data_time < QUOTA_REQUEST_INTERVAL`:
whether the tick skips the request because push data arrived recently. -/
def skipForRecentPush (lastPush : Option ℚ) (now : ℚ) : Bool :=
  match lastPush with
  | some t => if t ≠ 0 then decide (now - t < (QUOTA_REQUEST_INTERVAL : ℚ)) else false
  | none => false

/-- `DeviceApiClient._request_quota`: one tick either publishes exactly one
request envelope on the get topic (`some`) or publishes nothing (`none`).
`reqId` stands for the random `_gen_request_id()` draw. -/
def requestQuota (userId sn : String) (reqId : ℕ) (connected hasClient : Bool)
    (lastPush : Option ℚ) (now : ℚ) : Option QuotaRequest :=
  if ¬connected ∨ ¬hasClient then none
  else if skipForRecentPush lastPush now then none
  else some ⟨getTopicOf userId sn, "PrometheusExporter", reqId, "1.0", 0, "latestQuotas"⟩

/-- C6.  With the client connected, a quota tick publishes exactly one
request on the get topic if and only if `_last_push_data_time` is unset or
at least `QUOTA_REQUEST_INTERVAL` seconds old; otherwise it publishes
nothing.  The hypothesis `0 < t` states that any recorded push time is a
positive epoch timestamp (the only values `time.time()` produces). -/
theorem quota_request_suppression (userId sn : String) (reqId : ℕ)
    (lastPush : Option ℚ) (now : ℚ) (hpos : ∀ t, lastPush = some t → 0 < t) :
    ((requestQuota userId sn reqId true true lastPush now).isSome ↔
        (lastPush = none ∨
          ∃ t, lastPush = some t ∧ (QUOTA_REQUEST_INTERVAL : ℚ) ≤ now - t)) ∧
      (∀ r, requestQuota userId sn reqId true true lastPush now = some r →
        r.topic = getTopicOf userId sn) := by
  unfold requestQuota skipForRecentPush
  cases lastPush with
  | none =>
    constructor
    · simp
    · intro r hr
      simp only [not_true, or_self, if_false] at hr
      simp at hr
      rw [← hr]
  | some t =>
    have ht : t ≠ 0 := ne_of_gt (hpos t rfl)
    by_cases hlt : now - t < (QUOTA_REQUEST_INTERVAL : ℚ)
    · constructor
      · simp [ht, hlt]
      · intro r hr
        simp [ht, hlt] at hr
    · constructor
      · simp [ht, hlt]
        exact le_of_not_lt hlt
      · intro r hr
        simp [ht, hlt] at hr
        rw [← hr]

/-- C6 witness: with a push 10 seconds ago the tick publishes nothing; the
iff is instantiated at `lastPush = 1000`, `now = 1010`. -/
theorem quota_request_suppression_witness :
    (∀ t : ℚ, some (1000 : ℚ) = some t → 0 < t) ∧
      (((requestQuota "user1" "SN1" 999910000 true true (some 1000) 1010).isSome ↔
          ((some (1000 : ℚ) = none) ∨
            ∃ t, some (1000 : ℚ) = some t ∧
              (QUOTA_REQUEST_INTERVAL : ℚ) ≤ 1010 - t)) ∧
        (∀ r, requestQuota "user1" "SN1" 999910000 true true (some 1000) 1010 =
            some r → r.topic = getTopicOf "user1" "SN1")) :=
  ⟨fun t ht => by simp at ht; rw [← ht]; decide,
    quota_request_suppression "user1" "SN1" 999910000 (some 1000) 1010
      (fun t ht => by simp at ht; rw [← ht]; decide)⟩

/-! ### C8 — the freshness-adjusted online flag -/

/-- `MqttApiClient._get_device_info`'s online computation:
`online = self._mqtt.is_connected() if self._mqtt else False`, then when
`self._last_update` is truthy, `online = online and (now - last_update) <
MQTT_TIMEOUT`. -/
def mqttClientOnline (hasMqtt connected : Bool) (lastUpdate : Option ℚ)
    (now : ℚ) : Bool :=
  let onl := if hasMqtt then connected else false
  match lastUpdate with
  | none => onl
  | some t => if t ≠ 0 then onl && decide (now - t < (MQTT_TIMEOUT : ℚ)) else onl

/-- `DeviceApiClient._get_device_info`'s online computation:
`online = self._connected.is_set()`, then the same freshness adjustment. -/
def deviceClientOnline (connected : Bool) (lastUpdate : Option ℚ) (now : ℚ) : Bool :=
  match lastUpdate with
  | none => connected
  | some t => if t ≠ 0 then connected && decide (now - t < (MQTT_TIMEOUT : ℚ)) else connected

/-- `MqttApiClient.get_device`: the configured serial gets a `DeviceInfo`
with `product_name=None` and the freshness-adjusted online flag; any other
serial gets `None`. -/
def mqttGetDevice (cfgSn deviceName : String) (hasMqtt connected : Bool)
    (lastUpdate : Option ℚ) (now : ℚ) (sn : String) : Option DeviceInfo :=
  if sn = cfgSn then
    some ⟨cfgSn, deviceName, none, mqttClientOnline hasMqtt connected lastUpdate now⟩
  else none

/-- `DeviceApiClient.get_device`: as `mqttGetDevice` but with
`product_name="Unknown"`. -/
def deviceGetDevice (cfgSn deviceName : String) (connected : Bool)
    (lastUpdate : Option ℚ) (now : ℚ) (sn : String) : Option DeviceInfo :=
  if sn = cfgSn then
    some ⟨cfgSn, deviceName, some "Unknown", deviceClientOnline connected lastUpdate now⟩
  else none

/-- The claim's online formula, following the spec's words
(`online := broker_connected && (now - last_update_ts) < MQTT_TIMEOUT`,
asserted "for every state ... including states where no data has been
received yet"): when no data has ever been received, no update happened
within the last `MQTT_TIMEOUT` seconds, so the freshness conjunct is false. -/
def onlineSpecFormula (connected : Bool) (lastUpdate : Option ℚ) (now : ℚ) : Bool :=
  connected &&
    (match lastUpdate with
     | some t => decide (now - t < (MQTT_TIMEOUT : ℚ))
     | none => false)

/-- C8 counterexample.  In the state where the broker is connected but no
data has ever been received (`_last_update is None`), both backends report
`online = True` — the freshness clause is not applied at all — while the
claimed formula, read over that state, yields `False`. -/
theorem online_flag_counterexample :
    mqttClientOnline true true none 1000 = true ∧
      deviceClientOnline true none 1000 = true ∧
      onlineSpecFormula true none 1000 = false :=
  ⟨rfl, rfl, rfl⟩

/-- C8 amended.  Once data has been received (a positive `_last_update`),
both backends compute `online = connected && (now - last_update) <
MQTT_TIMEOUT`; while `_last_update` is unset they return the bare broker
connection signal, with no freshness adjustment. -/
theorem online_flag_freshness (connected : Bool) (now t : ℚ) (ht : 0 < t) :
    mqttClientOnline true connected (some t) now =
        (connected && decide (now - t < (MQTT_TIMEOUT : ℚ))) ∧
      deviceClientOnline connected (some t) now =
        (connected && decide (now - t < (MQTT_TIMEOUT : ℚ))) ∧
      mqttClientOnline true connected none now = connected ∧
      deviceClientOnline connected none now = connected := by
  have ht' : t ≠ 0 := ne_of_gt ht
  unfold mqttClientOnline deviceClientOnline
  simp [ht']

/-- C8 amended witness: fresh data 20 seconds old with the broker connected
reports online. -/
theorem online_flag_freshness_witness :
    (0 : ℚ) < 1000 ∧
      (mqttClientOnline true true (some 1000) 1020 =
          (true && decide ((1020 : ℚ) - 1000 < (MQTT_TIMEOUT : ℚ))) ∧
        deviceClientOnline true (some 1000) 1020 =
          (true && decide ((1020 : ℚ) - 1000 < (MQTT_TIMEOUT : ℚ))) ∧
        mqttClientOnline true true none 1020 = true ∧
        deviceClientOnline true none 1020 = true) :=
  ⟨by decide, online_flag_freshness true 1020 1000 (by decide)⟩

/-! ### C9 — reconnect backoff never exceeds the cap -/

/-- `MqttApiClient._apply_backoff`'s delay update
(`min(self._reconnect_delay * 2, MAX_RECONNECT_DELAY)`);
`DeviceApiClient._check_idle` applies the identical update inline on a
failed reconnect. -/
def applyBackoffDelay (maxDelay d : ℕ) : ℕ := min (d * 2) maxDelay

/-- One reconnect attempt's effect on `_reconnect_delay`: success resets it
to `IDLE_CHECK_INTERVAL` (its initial value), failure or timeout applies the
capped doubling — in both `MqttApiClient._reconnect` and
`DeviceApiClient._check_idle`. -/
def reconnectDelayStep (idle maxDelay d : ℕ) (success : Bool) : ℕ :=
  if success then idle else applyBackoffDelay maxDelay d

/-- `_reconnect_delay` after any sequence of reconnect outcomes, starting
from the initial value `IDLE_CHECK_INTERVAL`. -/
def reconnectDelayTrace (idle maxDelay : ℕ) (outcomes : List Bool) : ℕ :=
  outcomes.foldl (reconnectDelayStep idle maxDelay) idle

/-- C9.  In every reachable state of either backend — the initial delay
`IDLE_CHECK_INTERVAL`, then any sequence of successful (reset) and failed
(capped doubling) reconnect attempts — the reconnect delay never exceeds
`MAX_RECONNECT_DELAY`, provided the configured `IDLE_CHECK_INTERVAL` does
not itself exceed `MAX_RECONNECT_DELAY` (30 ≤ 300 at the defaults). -/
theorem backoff_never_exceeds_max (idle maxDelay : ℕ) (h : idle ≤ maxDelay)
    (outcomes : List Bool) :
    reconnectDelayTrace idle maxDelay outcomes ≤ maxDelay := by
  unfold reconnectDelayTrace
  have aux : ∀ (l : List Bool) (d : ℕ), d ≤ maxDelay →
      l.foldl (reconnectDelayStep idle maxDelay) d ≤ maxDelay := by
    intro l
    induction l with
    | nil => intro d hd; simpa using hd
    | cons o rest ih =>
      intro d hd
      apply ih
      cases o <;> simp [reconnectDelayStep, applyBackoffDelay, h]
  exact aux outcomes idle h

/-- C9 witness: three failures, a success and another failure at the
default configuration stay within the 300-second cap. -/
theorem backoff_never_exceeds_max_witness :
    IDLE_CHECK_INTERVAL ≤ MAX_RECONNECT_DELAY ∧
      reconnectDelayTrace IDLE_CHECK_INTERVAL MAX_RECONNECT_DELAY
          [false, false, false, true, false] ≤ MAX_RECONNECT_DELAY :=
  ⟨by decide,
    backoff_never_exceeds_max IDLE_CHECK_INTERVAL MAX_RECONNECT_DELAY (by decide)
      [false, false, false, true, false]⟩

end EcoflowSpec
